import Mathlib

/-!
Shallow embedding of `src/flappy_bird.py` (the game-loop state machine,
entity kinematics, obstacle stream, scoring and score persistence).
Floating-point values of the source are modelled by exact rationals;
`pygame.time.get_ticks()` millisecond timestamps by integers; the
pseudo-random sampler by an explicit seed argument.
-/

namespace Flappy

/-! ### Configuration constants (source lines 9-22) -/

def WIDTH : ℚ := 480
def HEIGHT : ℚ := 700
def BIRD_X : ℚ := 100
def GRAVITY : ℚ := 0.45
def FLAP_POWER : ℚ := -9.5
def TERMINAL_V : ℚ := 12
def PIPE_SPEED : ℚ := 3.3
def PIPE_GAP : ℤ := 200
def PIPE_INTERVAL : ℤ := 1700
def PIPE_WIDTH : ℚ := 88
def GROUND_HEIGHT : ℚ := 100

/-- `clamp(v, a, b) = max(a, min(b, v))` (source line 52). -/
def clamp (v a b : ℚ) : ℚ := max a (min b v)

/-! ### Score persistence helpers (source lines 38-50).

`load_highscore` wraps the file read in `try/except`, returning 0 on any
failure; the read outcome is made explicit as an `Except`: `.error` is a
raised open/read error, `.ok s` is the file content.  `int(...)` parsing
of Python is modelled by `pyInt`; a parse failure is the caught
`ValueError` branch.  `save_highscore` swallows any write error and
always returns normally. -/

def digitsToInt (cs : List Char) : Option ℤ :=
  if cs ≠ [] ∧ cs.all Char.isDigit then
    some (cs.foldl (fun a c => a * 10 + ((c.toNat : ℤ) - 48)) 0)
  else none

/-- Python `int(s)` on a stripped string: optional sign then decimal digits. -/
def pyInt (s : String) : Option ℤ :=
  match s.data with
  | [] => none
  | '+' :: cs => digitsToInt cs
  | '-' :: cs => (digitsToInt cs).map (fun n => -n)
  | cs => digitsToInt cs

/-- Python `str.strip()`: drop whitespace from both ends. -/
def pyStrip (s : String) : String :=
  String.mk (((s.data.dropWhile Char.isWhitespace).reverse.dropWhile
    Char.isWhitespace).reverse)

def load_highscore (readResult : Except String String) : ℤ :=
  match readResult with
  | .error _ => 0
  | .ok content =>
    let s := pyStrip content
    if s = "" then 0 else (pyInt s).getD 0

def save_highscore (_v : ℤ) (writeResult : Except String Unit) : Except String Unit :=
  match writeResult with
  | .ok _ => .ok ()
  | .error _ => .ok ()

/-! ### Bird (source lines 80-137; drawing omitted) -/

structure Bird where
  x : ℚ
  y : ℚ
  vel : ℚ
  angle : ℚ
  wing_phase : ℚ
  radius : ℚ
  deriving DecidableEq, Repr

/-- `Bird.__init__` (lines 81-87): `y = HEIGHT//2 = 350`. -/
def Bird.init : Bird :=
  { x := BIRD_X, y := 350, vel := 0, angle := 0, wing_phase := 0, radius := 18 }

/-- `Bird.flap` (lines 103-106). -/
def Bird.flap (b : Bird) : Bird :=
  { b with vel := FLAP_POWER, wing_phase := -0.6 }

/-- `Bird.update(dt)` (lines 108-119). -/
def Bird.update (dt : ℚ) (b : Bird) : Bird :=
  let v := clamp (b.vel + GRAVITY) (-999) TERMINAL_V
  { b with
    vel := v
    y := b.y + v
    angle := clamp (-v * 3.5) (-30) 80
    wing_phase := b.wing_phase + dt * 8 }

/-! ### Pipes (source lines 165-194; surfaces/drawing omitted) -/

structure Pipe where
  x : ℚ
  w : ℚ
  h_top : ℤ
  h_bottom : ℤ
  passed : Bool
  deriving DecidableEq, Repr

/-- `random.randint(a, b)`: a uniform sample from the inclusive range
`[a, b]`, modelled by reducing an arbitrary seed into the range. -/
def randint (a b : ℤ) (seed : ℕ) : ℤ := a + (seed : ℤ) % (b - a + 1)

/-- `Pipe.__init__(x)` (lines 166-177): `total_h = HEIGHT - GROUND_HEIGHT = 600`,
`h_top = randint(80, total_h - PIPE_GAP - 80)`, `h_bottom = total_h - h_top - PIPE_GAP`. -/
def Pipe.mk' (x : ℚ) (seed : ℕ) : Pipe :=
  let total_h : ℤ := 600
  let h_top := randint 80 (total_h - PIPE_GAP - 80) seed
  { x := x, w := PIPE_WIDTH, h_top := h_top,
    h_bottom := total_h - h_top - PIPE_GAP, passed := false }

/-- `Pipe.update(dt)` (lines 179-180): `x -= PIPE_SPEED` (dt unused). -/
def Pipe.update (p : Pipe) : Pipe := { p with x := p.x - PIPE_SPEED }

/-! ### Rects and collision (pygame `Rect` truncates floats to ints;
`colliderect` is strict overlap on all four sides) -/

structure Rect where
  x : ℤ
  y : ℤ
  w : ℤ
  h : ℤ
  deriving DecidableEq, Repr

/-- Python `int()` / pygame Rect coordinate conversion: truncation toward zero. -/
def ratTrunc (q : ℚ) : ℤ := q.num.tdiv (q.den : ℤ)

def colliderect (a b : Rect) : Bool :=
  decide (a.x < b.x + b.w) && decide (b.x < a.x + a.w) &&
  decide (a.y < b.y + b.h) && decide (b.y < a.y + a.h)

/-- `Bird.get_rect` (lines 136-137). -/
def Bird.get_rect (b : Bird) : Rect :=
  { x := ratTrunc (b.x - b.radius), y := ratTrunc (b.y - b.radius),
    w := ratTrunc (b.radius * 2), h := ratTrunc (b.radius * 2) }

/-- `Pipe.get_top_rect` (lines 189-190). -/
def Pipe.get_top_rect (p : Pipe) : Rect :=
  { x := ratTrunc p.x, y := 0, w := ratTrunc p.w, h := p.h_top }

/-- `Pipe.get_bottom_rect` (lines 192-194). -/
def Pipe.get_bottom_rect (p : Pipe) : Rect :=
  { x := ratTrunc p.x, y := p.h_top + PIPE_GAP, w := ratTrunc p.w, h := p.h_bottom }

/-! ### Game state and one frame of `run_game` (lines 220-315).

State carried across frames (clouds and particles are pure decoration and
touch no field below, so they are not modelled).  One frame is
parametrised by `now` (`pygame.time.get_ticks()`), `dt`, the seed feeding
the pipe spawn's `randint`, and the ordered event list of the frame. -/

structure GameState where
  bird : Bird
  pipes : List Pipe
  lastPipeTime : ℤ
  score : ℕ
  high : ℤ
  running : Bool
  started : Bool
  gameOver : Bool
  deriving DecidableEq, Repr

inductive GKey where
  | escape
  | space
  | r
  | other
  deriving DecidableEq, Repr

inductive GEvent where
  | quit
  | key (k : GKey)
  deriving DecidableEq, Repr

/-- The restart block run on SPACE-while-game-over and on R (lines 253-268):
clear pipes, re-arm the spawn timer, zero the score, fresh bird
(particles cleared), `started = True`, `game_over = False`. -/
def restart (now : ℤ) (s : GameState) : GameState :=
  { s with pipes := [], lastPipeTime := now, score := 0,
           bird := Bird.init, started := true, gameOver := false }

/-- One event of the `pygame.event.get()` loop (lines 235-268); the
returned flag is the `break` on QUIT / ESCAPE. -/
def handleEvent (now : ℤ) (s : GameState) : GEvent → GameState × Bool
  | .quit => ({ s with running := false }, true)
  | .key .escape => ({ s with running := false }, true)
  | .key .space =>
      let s1 := if !s.started then { s with started := true, bird := Bird.init } else s
      let s2 := if !s1.gameOver then { s1 with bird := s1.bird.flap } else restart now s1
      (s2, false)
  | .key .r => (if s.gameOver then restart now s else s, false)
  | .key .other => (s, false)

def handleEvents (now : ℤ) : List GEvent → GameState → GameState
  | [], s => s
  | e :: es, s =>
      let (s1, brk) := handleEvent now s e
      if brk then s1 else handleEvents now es s1

/-- Pipe spawning (lines 275-278). -/
def spawnStep (now : ℤ) (seed : ℕ) (s : GameState) : GameState :=
  if s.started && !s.gameOver && decide (now - s.lastPipeTime > PIPE_INTERVAL) then
    { s with lastPipeTime := now, pipes := s.pipes ++ [Pipe.mk' (WIDTH + 20) seed] }
  else s

/-- Scoring check on one (already moved) pipe (lines 286-290);
`save_highscore` has no in-memory effect. -/
def pipeScore (birdX : ℚ) (p : Pipe) (score : ℕ) (high : ℤ) : Pipe × ℕ × ℤ :=
  if !p.passed && decide (p.x + p.w < birdX) then
    ({ p with passed := true }, score + 1, max high ((score : ℤ) + 1))
  else (p, score, high)

/-- The pipe loop over `list(pipes)` (lines 281-290): each pipe is moved,
off-screen pipes trigger a `popleft()` (counted, applied to the head of
the processed deque afterwards, which is what in-place mutation of the
shared objects amounts to), then the scoring check runs. -/
def pipesLoop (birdX : ℚ) : List Pipe → ℕ → ℤ → List Pipe × ℕ × ℤ × ℕ
  | [], score, high => ([], score, high, 0)
  | p :: ps, score, high =>
      let p1 := p.update
      let pop : ℕ := if p1.x + p1.w < -60 then 1 else 0
      let (p2, score2, high2) := pipeScore birdX p1 score high
      let (rest, score3, high3, pops) := pipesLoop birdX ps score2 high2
      (p2 :: rest, score3, high3, pop + pops)

def pipesStep (s : GameState) : GameState :=
  let (ps, score, high, pops) := pipesLoop s.bird.x s.pipes s.score s.high
  { s with pipes := ps.drop pops, score := score, high := high }

/-- Bird update gate (lines 293-297). -/
def birdStep (dt : ℚ) (s : GameState) : GameState :=
  if s.started && !s.gameOver then { s with bird := s.bird.update dt }
  else { s with bird := { s.bird with wing_phase := s.bird.wing_phase + dt * 4 } }

/-- Collision detection (lines 306-315): ground then pipes, only while
started and not already over. -/
def collisionStep (s : GameState) : GameState :=
  if s.started && !s.gameOver then
    let groundHit := decide (s.bird.y + s.bird.radius > HEIGHT - GROUND_HEIGHT)
    let brect := s.bird.get_rect
    let pipeHit := s.pipes.any fun p =>
      colliderect brect p.get_top_rect || colliderect brect p.get_bottom_rect
    if groundHit || pipeHit then { s with gameOver := true } else s
  else s

/-- One iteration of the main `while running` loop (simulation part,
lines 234-315; drawing is read-only). -/
def frame (now : ℤ) (dt : ℚ) (seed : ℕ) (events : List GEvent) (s : GameState) : GameState :=
  collisionStep (birdStep dt (pipesStep (spawnStep now seed (handleEvents now events s))))

/-! ### Spec-side definition for the kinematics refinement claim -/

/-- Entity Kinematics `update` exactly as the specification words it:
velocity advances by gravity and is clamped to `[-infinity, terminal_velocity]`
(no lower bound), the resulting velocity is added to the position, and the
rotation is recomputed as `clamp(-velocity * sensitivity, min_angle, max_angle)`. -/
def specKinematicsUpdate (b : Bird) : Bird :=
  let v := min (b.vel + GRAVITY) TERMINAL_V
  { b with vel := v, y := b.y + v, angle := clamp (-v * 3.5) (-30) 80 }

/-! ### Operation sequences for reachability claims -/

inductive BirdOp where
  | flap
  | update (dt : ℚ)

def applyOp (b : Bird) : BirdOp → Bird
  | .flap => b.flap
  | .update dt => b.update dt

def runOps (b : Bird) (ops : List BirdOp) : Bird := ops.foldl applyOp b

/-- Bird state after `n` updates with per-step time deltas `dts` and no flap. -/
def updateN (dts : ℕ → ℚ) (b : Bird) : ℕ → Bird
  | 0 => b
  | n + 1 => (updateN dts b n).update (dts n)

/-- A pipe's per-frame evolution in isolation: move, then the scoring
check, returning the new pipe and its score contribution this frame. -/
def pipeFrame (birdX : ℚ) (p : Pipe) : Pipe × ℕ :=
  let (p2, c, _) := pipeScore birdX p.update 0 0
  (p2, c)

/-- A pipe's lifetime over `n` frames: final pipe and total score
contribution. -/
def pipeLifetime (birdX : ℚ) (p : Pipe) : ℕ → Pipe × ℕ
  | 0 => (p, 0)
  | n + 1 =>
      let (p1, c1) := pipeLifetime birdX p n
      let (p2, c2) := pipeFrame birdX p1
      (p2, c1 + c2)

/-! ### Concrete states used to instantiate the theorems -/

/-- A bird already falling faster than `-999 - GRAVITY` upward. -/
def birdFastUp : Bird := { Bird.init with vel := -2000 }

/-- A bird moving downward faster than terminal velocity. -/
def birdPastTerminal : Bird := { Bird.init with vel := 13 }

/-- A reachable pipe one frame short of crossing the bird's column:
`x + w = 103 > BIRD_X`, not yet passed. -/
def pipeNearBird : Pipe :=
  { x := 15, w := PIPE_WIDTH, h_top := 300, h_bottom := 100, passed := false }

/-- A game-over session state with `pipeNearBird` still on screen. -/
def stateOver : GameState :=
  { bird := Bird.init, pipes := [pipeNearBird], lastPipeTime := 0,
    score := 0, high := 0, running := true, started := true, gameOver := true }

/-! ## Helper lemmas -/

theorem randint_mem (a b : ℤ) (h : a ≤ b) (seed : ℕ) :
    a ≤ randint a b seed ∧ randint a b seed ≤ b := by
  unfold randint
  have h0 : (0 : ℤ) ≤ (seed : ℤ) % (b - a + 1) := Int.emod_nonneg _ (by omega)
  have h1 : (seed : ℤ) % (b - a + 1) < b - a + 1 := Int.emod_lt_of_pos _ (by omega)
  omega

theorem update_vel (dt : ℚ) (b : Bird) :
    (b.update dt).vel = clamp (b.vel + GRAVITY) (-999) TERMINAL_V := rfl

/-- One velocity step through the clamp: bounded above by terminal
velocity, non-decreasing from any velocity at most terminal, strictly
increasing below terminal, and a fixed point at terminal. -/
theorem clamp_step (v : ℚ) :
    clamp (v + GRAVITY) (-999) TERMINAL_V ≤ 12 ∧
    (v ≤ 12 → v ≤ clamp (v + GRAVITY) (-999) TERMINAL_V) ∧
    (v < 12 → v < clamp (v + GRAVITY) (-999) TERMINAL_V) ∧
    (v = 12 → clamp (v + GRAVITY) (-999) TERMINAL_V = 12) := by
  simp only [clamp, GRAVITY, TERMINAL_V]
  rcases le_total (v + 0.45) 12 with h1 | h1
  · rw [min_eq_right h1]
    refine ⟨max_le (by norm_num) h1, fun _ => ?_, fun _ => ?_, fun hv => ?_⟩
    · exact le_trans (by linarith) (le_max_right _ _)
    · exact lt_of_lt_of_le (by linarith) (le_max_right _ _)
    · exact absurd h1 (by rw [hv]; norm_num)
  · rw [min_eq_left h1, max_eq_right (by norm_num : (-999 : ℚ) ≤ 12)]
    exact ⟨le_refl _, fun h => h, fun h => h, fun _ => rfl⟩

/-- The clamp's lower bound is not binding above `-999 - GRAVITY`. -/
theorem clamp_lower_slack (v : ℚ) (h : -999 ≤ v + GRAVITY) :
    clamp (v + GRAVITY) (-999) TERMINAL_V = min (v + GRAVITY) TERMINAL_V := by
  simp only [clamp]
  rw [min_comm, max_eq_right (le_min h (by norm_num [TERMINAL_V]))]

/-! ## Claims -/

/-- C2: `flap()` unconditionally overwrites the velocity with the fixed
impulse `FLAP_POWER`, for every starting velocity, and `flap(); flap()`
equals a single `flap()` (idempotent overwrite, not cumulative). -/
theorem C2_flap_overwrite (b : Bird) :
    (b.flap).vel = FLAP_POWER ∧ (b.flap).flap = b.flap := ⟨rfl, rfl⟩

/-- C5: every created obstacle keeps at least the minimum clearance of 80
on both segments (`h_top ≥ 80` and `600 - h_top - PIPE_GAP ≥ 80`), and the
top segment, gap and bottom segment exactly tile the 600-unit playfield. -/
theorem C5_gap_invariant (x : ℚ) (seed : ℕ) :
    80 ≤ (Pipe.mk' x seed).h_top ∧
    600 - (Pipe.mk' x seed).h_top - PIPE_GAP ≥ 80 ∧
    (Pipe.mk' x seed).h_top + PIPE_GAP + (Pipe.mk' x seed).h_bottom = 600 := by
  have h := randint_mem 80 (600 - PIPE_GAP - 80) (by norm_num [PIPE_GAP]) seed
  simp only [Pipe.mk', PIPE_GAP] at *
  omega

/-- C3 counterexample: `update` clamps velocity below at `-999`, so for
the starting velocity `-2000` the new velocity is `-999`, not
`old velocity + GRAVITY` as the unbounded-below claim requires. -/
theorem C3_counterexample :
    birdFastUp.vel = -2000 ∧
    (Bird.update 0 birdFastUp).vel = -999 ∧
    (Bird.update 0 birdFastUp).vel ≠ birdFastUp.vel + GRAVITY ∧
    (Bird.update 0 birdFastUp).vel ≠ (specKinematicsUpdate birdFastUp).vel := by
  norm_num [birdFastUp, Bird.init, Bird.update, specKinematicsUpdate, clamp,
    GRAVITY, TERMINAL_V, min_def, max_def]

/-- C3 (amended): `update(dt)` adds `GRAVITY` to the velocity and clamps
the result to `[-999, TERMINAL_V]` (not `[-infinity, TERMINAL_V]`); for
every starting velocity at least `-999 - GRAVITY` the lower clamp does not
bind and the update agrees with the specification's formula for velocity,
position and rotation. -/
theorem C3_amended (dt : ℚ) (b : Bird) (h : -999 ≤ b.vel + GRAVITY) :
    (Bird.update dt b).vel = (specKinematicsUpdate b).vel ∧
    (Bird.update dt b).y = (specKinematicsUpdate b).y ∧
    (Bird.update dt b).angle = (specKinematicsUpdate b).angle := by
  have hv : clamp (b.vel + GRAVITY) (-999) TERMINAL_V = min (b.vel + GRAVITY) TERMINAL_V :=
    clamp_lower_slack b.vel h
  refine ⟨?_, ?_, ?_⟩ <;> simp only [Bird.update, specKinematicsUpdate, hv]

/-- C3 amended, instantiated at the initial bird. -/
theorem C3_amended_witness :
    (Bird.update 0 Bird.init).vel = (specKinematicsUpdate Bird.init).vel ∧
    (Bird.update 0 Bird.init).y = (specKinematicsUpdate Bird.init).y ∧
    (Bird.update 0 Bird.init).angle = (specKinematicsUpdate Bird.init).angle :=
  C3_amended 0 Bird.init (by norm_num [Bird.init, GRAVITY])

/-- C4 counterexample: from the starting velocity 13 (above terminal),
one update strictly decreases the velocity to 12, so the velocity
sequence is not non-decreasing for every starting velocity. -/
theorem C4_counterexample :
    birdPastTerminal.vel = 13 ∧
    (updateN (fun _ => 0) birdPastTerminal 1).vel = 12 ∧
    (updateN (fun _ => 0) birdPastTerminal 1).vel <
      (updateN (fun _ => 0) birdPastTerminal 0).vel := by
  norm_num [birdPastTerminal, Bird.init, updateN, Bird.update, clamp,
    GRAVITY, TERMINAL_V, min_def, max_def]

/-- C4 (amended): for every dt sequence and every starting velocity at
most the terminal velocity, repeated `update` without `flap` yields a
non-decreasing velocity sequence, strictly increasing while below the
terminal clamp, and exactly the terminal velocity on every update after
the clamp is reached. -/
theorem C4_amended (dts : ℕ → ℚ) (b : Bird) (h : b.vel ≤ TERMINAL_V) (n : ℕ) :
    (updateN dts b n).vel ≤ (updateN dts b (n + 1)).vel ∧
    ((updateN dts b n).vel < TERMINAL_V →
      (updateN dts b n).vel < (updateN dts b (n + 1)).vel) ∧
    ((updateN dts b n).vel = TERMINAL_V →
      (updateN dts b (n + 1)).vel = TERMINAL_V) := by
  have h12 : b.vel ≤ 12 := by simpa [TERMINAL_V] using h
  have inv : ∀ m, (updateN dts b m).vel ≤ 12 := by
    intro m
    induction m with
    | zero => simpa [updateN] using h12
    | succ k ih =>
        show ((updateN dts b k).update (dts k)).vel ≤ 12
        rw [update_vel]
        exact (clamp_step _).1
  have hstep :
      (updateN dts b (n + 1)).vel = clamp ((updateN dts b n).vel + GRAVITY) (-999) TERMINAL_V :=
    update_vel (dts n) (updateN dts b n)
  obtain ⟨_, hB, hC, hD⟩ := clamp_step ((updateN dts b n).vel)
  refine ⟨?_, ?_, ?_⟩
  · rw [hstep]; exact hB (inv n)
  · intro hlt
    rw [hstep]
    exact hC (by simpa [TERMINAL_V] using hlt)
  · intro heq
    rw [hstep]
    simp only [TERMINAL_V]
    exact hD (by simpa [TERMINAL_V] using heq)

/-- C4 amended, instantiated at the initial bird: the first update takes
the velocity from 0 up to `GRAVITY`. -/
theorem C4_amended_witness :
    (updateN (fun _ => 1) Bird.init 0).vel ≤ (updateN (fun _ => 1) Bird.init 1).vel ∧
    ((updateN (fun _ => 1) Bird.init 0).vel < TERMINAL_V →
      (updateN (fun _ => 1) Bird.init 0).vel < (updateN (fun _ => 1) Bird.init 1).vel) ∧
    ((updateN (fun _ => 1) Bird.init 0).vel = TERMINAL_V →
      (updateN (fun _ => 1) Bird.init 1).vel = TERMINAL_V) :=
  C4_amended (fun _ => 1) Bird.init (by norm_num [Bird.init, TERMINAL_V]) 0

/-! ## Velocity reachability lemmas -/

theorem velInv_applyOp (b : Bird) (op : BirdOp)
    (h1 : FLAP_POWER ≤ b.vel) (_h2 : b.vel ≤ TERMINAL_V) :
    FLAP_POWER ≤ (applyOp b op).vel ∧ (applyOp b op).vel ≤ TERMINAL_V := by
  cases op with
  | flap => exact ⟨le_refl _, by norm_num [applyOp, Bird.flap, FLAP_POWER, TERMINAL_V]⟩
  | update dt =>
      simp only [applyOp, FLAP_POWER, TERMINAL_V] at *
      rw [update_vel, clamp_lower_slack b.vel (by norm_num [GRAVITY]; linarith)]
      constructor
      · exact le_min (by norm_num [GRAVITY]; linarith) (by norm_num [TERMINAL_V])
      · simp [TERMINAL_V]

theorem velInv_runOps (ops : List BirdOp) :
    ∀ b : Bird, FLAP_POWER ≤ b.vel → b.vel ≤ TERMINAL_V →
      FLAP_POWER ≤ (runOps b ops).vel ∧ (runOps b ops).vel ≤ TERMINAL_V := by
  induction ops with
  | nil => intro b h1 h2; exact ⟨h1, h2⟩
  | cons op ops ih =>
      intro b h1 h2
      have h := velInv_applyOp b op h1 h2
      simpa [runOps, List.foldl] using ih (applyOp b op) h.1 h.2

/-- C10: from the initial state, under any sequence of `flap` and
`update` operations, the velocity stays in `[FLAP_POWER, TERMINAL_V]`
(so in particular after every update), and on every reachable state the
`-999` lower clamp inside `update` is not the binding bound: the updated
velocity equals the upper-clamp-only formula. -/
theorem C10_reachable_velocity (ops : List BirdOp) (dt : ℚ) :
    FLAP_POWER ≤ (runOps Bird.init ops).vel ∧
    (runOps Bird.init ops).vel ≤ TERMINAL_V ∧
    ((runOps Bird.init ops).update dt).vel =
      min ((runOps Bird.init ops).vel + GRAVITY) TERMINAL_V ∧
    FLAP_POWER ≤ ((runOps Bird.init ops).update dt).vel ∧
    ((runOps Bird.init ops).update dt).vel ≤ TERMINAL_V := by
  obtain ⟨h1, h2⟩ := velInv_runOps ops Bird.init
    (by norm_num [Bird.init, FLAP_POWER]) (by norm_num [Bird.init, TERMINAL_V])
  have h3 := velInv_applyOp (runOps Bird.init ops) (.update dt) h1 h2
  simp only [applyOp] at h3
  refine ⟨h1, h2, ?_, h3.1, h3.2⟩
  rw [update_vel]
  refine clamp_lower_slack _ ?_
  simp only [FLAP_POWER] at h1
  norm_num [GRAVITY]
  linarith

/-! ## Frame phase lemmas -/

theorem handleEvent_fst_high (now : ℤ) (s : GameState) (e : GEvent) :
    (handleEvent now s e).1.high = s.high := by
  cases e with
  | quit => rfl
  | key k =>
      cases k with
      | escape => rfl
      | space => simp only [handleEvent]; split_ifs <;> simp [restart]
      | r => simp only [handleEvent]; split_ifs <;> simp [restart]
      | other => rfl

theorem handleEvents_high (now : ℤ) (es : List GEvent) :
    ∀ s : GameState, (handleEvents now es s).high = s.high := by
  induction es with
  | nil => intro s; rfl
  | cons e es ih =>
      intro s
      simp only [handleEvents]
      rcases hq : handleEvent now s e with ⟨s1, brk⟩
      have h1 : s1.high = s.high := by
        have h := handleEvent_fst_high now s e
        rw [hq] at h
        exact h
      cases brk
      · simpa using (ih s1).trans h1
      · simpa using h1

theorem spawnStep_high (now : ℤ) (seed : ℕ) (s : GameState) :
    (spawnStep now seed s).high = s.high := by
  unfold spawnStep; split <;> rfl

theorem spawnStep_skip (now : ℤ) (seed : ℕ) (s : GameState) (h : s.gameOver = true) :
    spawnStep now seed s = s := by
  unfold spawnStep
  rw [h]
  simp

theorem pipeScore_spec (bx : ℚ) (p : Pipe) (sc : ℕ) (hi : ℤ) :
    sc ≤ (pipeScore bx p sc hi).2.1 ∧ hi ≤ (pipeScore bx p sc hi).2.2 ∧
    (pipeScore bx p sc hi).1.x = p.x ∧ (pipeScore bx p sc hi).1.h_top = p.h_top ∧
    (pipeScore bx p sc hi).1.h_bottom = p.h_bottom ∧ (pipeScore bx p sc hi).1.w = p.w ∧
    (p.passed = true → (pipeScore bx p sc hi).1.passed = true) := by
  unfold pipeScore
  split_ifs with hc
  · exact ⟨Nat.le_succ _, le_max_left _ _, rfl, rfl, rfl, rfl, fun _ => rfl⟩
  · exact ⟨le_refl _, le_refl _, rfl, rfl, rfl, rfl, fun h => h⟩

theorem pipesLoop_spec (bx : ℚ) (ps : List Pipe) :
    ∀ (sc : ℕ) (hi : ℤ),
      sc ≤ (pipesLoop bx ps sc hi).2.1 ∧
      hi ≤ (pipesLoop bx ps sc hi).2.2.1 ∧
      ∀ p' ∈ (pipesLoop bx ps sc hi).1, ∃ p ∈ ps,
        p'.x = p.x - PIPE_SPEED ∧ p'.h_top = p.h_top ∧ p'.h_bottom = p.h_bottom ∧
        p'.w = p.w ∧ (p.passed = true → p'.passed = true) := by
  induction ps with
  | nil => intro sc hi; exact ⟨le_refl _, le_refl _, by simp [pipesLoop]⟩
  | cons p ps ih =>
      intro sc hi
      simp only [pipesLoop]
      rcases hq : pipeScore bx p.update sc hi with ⟨p2, sc2, hi2⟩
      have hps := pipeScore_spec bx p.update sc hi
      rw [hq] at hps
      rcases hq2 : pipesLoop bx ps sc2 hi2 with ⟨rest, sc3, hi3, pops⟩
      have hrec := ih sc2 hi2
      rw [hq2] at hrec
      dsimp at hps hrec ⊢
      refine ⟨le_trans hps.1 hrec.1, le_trans hps.2.1 hrec.2.1, ?_⟩
      intro p' hp'
      rcases List.mem_cons.mp hp' with rfl | hmem
      · refine ⟨p, List.mem_cons_self _ _, ?_, ?_, ?_, ?_, ?_⟩
        · rw [hps.2.2.1]; rfl
        · rw [hps.2.2.2.1]; rfl
        · rw [hps.2.2.2.2.1]; rfl
        · rw [hps.2.2.2.2.2.1]; rfl
        · intro hpass
          exact hps.2.2.2.2.2.2 (by simpa [Pipe.update] using hpass)
      · obtain ⟨q, hqmem, hrest⟩ := hrec.2.2 p' hmem
        exact ⟨q, List.mem_cons_of_mem _ hqmem, hrest⟩

theorem pipesStep_high (s : GameState) : s.high ≤ (pipesStep s).high := by
  unfold pipesStep
  rcases hq : pipesLoop s.bird.x s.pipes s.score s.high with ⟨ps, sc, hi, pops⟩
  have h := pipesLoop_spec s.bird.x s.pipes s.score s.high
  rw [hq] at h
  exact h.2.1

theorem pipesStep_score (s : GameState) : s.score ≤ (pipesStep s).score := by
  unfold pipesStep
  rcases hq : pipesLoop s.bird.x s.pipes s.score s.high with ⟨ps, sc, hi, pops⟩
  have h := pipesLoop_spec s.bird.x s.pipes s.score s.high
  rw [hq] at h
  exact h.1

theorem pipesStep_pipes (s : GameState) :
    ∀ p' ∈ (pipesStep s).pipes, ∃ p ∈ s.pipes,
      p'.x = p.x - PIPE_SPEED ∧ p'.h_top = p.h_top ∧ p'.h_bottom = p.h_bottom ∧
      p'.w = p.w ∧ (p.passed = true → p'.passed = true) := by
  unfold pipesStep
  rcases hq : pipesLoop s.bird.x s.pipes s.score s.high with ⟨ps, sc, hi, pops⟩
  have h := pipesLoop_spec s.bird.x s.pipes s.score s.high
  rw [hq] at h
  intro p' hp'
  exact h.2.2 p' (List.drop_subset pops ps hp')

theorem pipesStep_bird (s : GameState) : (pipesStep s).bird = s.bird := by
  unfold pipesStep
  rcases pipesLoop s.bird.x s.pipes s.score s.high with ⟨ps, sc, hi, pops⟩
  rfl

theorem pipesStep_gameOver (s : GameState) : (pipesStep s).gameOver = s.gameOver := by
  unfold pipesStep
  rcases pipesLoop s.bird.x s.pipes s.score s.high with ⟨ps, sc, hi, pops⟩
  rfl

theorem birdStep_high (dt : ℚ) (s : GameState) : (birdStep dt s).high = s.high := by
  unfold birdStep; split <;> rfl

theorem birdStep_score (dt : ℚ) (s : GameState) : (birdStep dt s).score = s.score := by
  unfold birdStep; split <;> rfl

theorem birdStep_pipes (dt : ℚ) (s : GameState) : (birdStep dt s).pipes = s.pipes := by
  unfold birdStep; split <;> rfl

theorem birdStep_gameOver (dt : ℚ) (s : GameState) :
    (birdStep dt s).gameOver = s.gameOver := by
  unfold birdStep; split <;> rfl

theorem birdStep_frozen (dt : ℚ) (s : GameState) (h : s.gameOver = true) :
    (birdStep dt s).bird.y = s.bird.y ∧ (birdStep dt s).bird.vel = s.bird.vel ∧
    (birdStep dt s).bird.angle = s.bird.angle := by
  unfold birdStep
  rw [h]
  simp

theorem collisionStep_high (s : GameState) : (collisionStep s).high = s.high := by
  simp only [collisionStep]
  split_ifs <;> rfl

theorem collisionStep_skip (s : GameState) (h : s.gameOver = true) :
    collisionStep s = s := by
  simp only [collisionStep]
  rw [h]
  simp

/-- C6: the in-memory best score is monotone: for every frame, every
input event list, every timing and every starting state, the best score
after the frame is at least the best score before it. -/
theorem C6_best_score_monotone (now : ℤ) (dt : ℚ) (seed : ℕ)
    (events : List GEvent) (s : GameState) :
    s.high ≤ (frame now dt seed events s).high := by
  unfold frame
  rw [collisionStep_high, birdStep_high]
  have h := pipesStep_high (spawnStep now seed (handleEvents now events s))
  rw [spawnStep_high, handleEvents_high] at h
  exact h

/-- C9: from a game-over state, a SPACE (primary action) or R (restart)
input transitions the session to Running (`started`, not `gameOver`) and
performs the full reset: score 0, entity at its default spawn state,
obstacle stream empty, spawn timer re-armed to the current time. -/
theorem C9_restart_resets (now : ℤ) (s : GameState) (h : s.gameOver = true) :
    (handleEvents now [GEvent.key GKey.space] s).started = true ∧
    (handleEvents now [GEvent.key GKey.space] s).gameOver = false ∧
    (handleEvents now [GEvent.key GKey.space] s).score = 0 ∧
    (handleEvents now [GEvent.key GKey.space] s).bird = Bird.init ∧
    (handleEvents now [GEvent.key GKey.space] s).pipes = [] ∧
    (handleEvents now [GEvent.key GKey.space] s).lastPipeTime = now ∧
    (handleEvents now [GEvent.key GKey.r] s).started = true ∧
    (handleEvents now [GEvent.key GKey.r] s).gameOver = false ∧
    (handleEvents now [GEvent.key GKey.r] s).score = 0 ∧
    (handleEvents now [GEvent.key GKey.r] s).bird = Bird.init ∧
    (handleEvents now [GEvent.key GKey.r] s).pipes = [] ∧
    (handleEvents now [GEvent.key GKey.r] s).lastPipeTime = now := by
  cases hs : s.started <;>
    simp [handleEvents, handleEvent, restart, h, hs]

/-- C9, instantiated on a concrete game-over state. -/
theorem C9_restart_resets_witness :
    (handleEvents 42 [GEvent.key GKey.space] stateOver).started = true ∧
    (handleEvents 42 [GEvent.key GKey.space] stateOver).gameOver = false ∧
    (handleEvents 42 [GEvent.key GKey.space] stateOver).score = 0 ∧
    (handleEvents 42 [GEvent.key GKey.space] stateOver).bird = Bird.init ∧
    (handleEvents 42 [GEvent.key GKey.space] stateOver).pipes = [] ∧
    (handleEvents 42 [GEvent.key GKey.space] stateOver).lastPipeTime = 42 ∧
    (handleEvents 42 [GEvent.key GKey.r] stateOver).started = true ∧
    (handleEvents 42 [GEvent.key GKey.r] stateOver).gameOver = false ∧
    (handleEvents 42 [GEvent.key GKey.r] stateOver).score = 0 ∧
    (handleEvents 42 [GEvent.key GKey.r] stateOver).bird = Bird.init ∧
    (handleEvents 42 [GEvent.key GKey.r] stateOver).pipes = [] ∧
    (handleEvents 42 [GEvent.key GKey.r] stateOver).lastPipeTime = 42 :=
  C9_restart_resets 42 stateOver rfl

/-- C1 counterexample: a reachable game-over frame with no input in
which the obstacle still moves left by `PIPE_SPEED`, its `passed` flag
flips, and the score increments — the game state is not frozen in
GameOver. -/
theorem C1_counterexample :
    stateOver.gameOver = true ∧
    stateOver.score = 0 ∧
    stateOver.pipes.map Pipe.x = [15] ∧
    stateOver.pipes.map Pipe.passed = [false] ∧
    (frame 0 0 0 [] stateOver).score = 1 ∧
    (frame 0 0 0 [] stateOver).pipes.map Pipe.x = [11.7] ∧
    (frame 0 0 0 [] stateOver).pipes.map Pipe.passed = [true] := by
  norm_num [frame, handleEvents, spawnStep, pipesStep, pipesLoop, pipeScore,
    birdStep, collisionStep, Pipe.update, stateOver, pipeNearBird, Bird.init,
    PIPE_SPEED, PIPE_WIDTH, PIPE_INTERVAL, PIPE_GAP, BIRD_X, WIDTH, HEIGHT,
    GROUND_HEIGHT, GRAVITY, TERMINAL_V]

/-- C1 (amended): in a GameOver frame with no input, only the entity is
frozen (position, velocity and rotation unchanged); the obstacle stream
still advances — every surviving obstacle has moved left by `PIPE_SPEED`
— and scoring still applies, so the score and best score may rise. -/
theorem C1_amended (now : ℤ) (dt : ℚ) (seed : ℕ) (s : GameState)
    (h : s.gameOver = true) :
    (frame now dt seed [] s).bird.y = s.bird.y ∧
    (frame now dt seed [] s).bird.vel = s.bird.vel ∧
    (frame now dt seed [] s).bird.angle = s.bird.angle ∧
    s.score ≤ (frame now dt seed [] s).score ∧
    s.high ≤ (frame now dt seed [] s).high ∧
    ∀ p' ∈ (frame now dt seed [] s).pipes, ∃ p ∈ s.pipes,
      p'.x = p.x - PIPE_SPEED ∧ p'.h_top = p.h_top ∧
      (p.passed = true → p'.passed = true) := by
  have hframe : frame now dt seed [] s = collisionStep (birdStep dt (pipesStep s)) := by
    unfold frame
    rw [show handleEvents now [] s = s from rfl, spawnStep_skip now seed s h]
  have hgo2 : (birdStep dt (pipesStep s)).gameOver = true := by
    rw [birdStep_gameOver, pipesStep_gameOver, h]
  have hcol : collisionStep (birdStep dt (pipesStep s)) = birdStep dt (pipesStep s) :=
    collisionStep_skip _ hgo2
  have hps_go : (pipesStep s).gameOver = true := by rw [pipesStep_gameOver, h]
  have hbf := birdStep_frozen dt (pipesStep s) hps_go
  rw [hframe, hcol]
  refine ⟨?_, ?_, ?_, ?_, ?_, ?_⟩
  · rw [hbf.1, pipesStep_bird]
  · rw [hbf.2.1, pipesStep_bird]
  · rw [hbf.2.2, pipesStep_bird]
  · rw [birdStep_score]; exact pipesStep_score s
  · rw [birdStep_high]; exact pipesStep_high s
  · rw [birdStep_pipes]
    intro p' hp'
    obtain ⟨p, hm, h1, h2, _, _, h5⟩ := pipesStep_pipes s p' hp'
    exact ⟨p, hm, h1, h2, h5⟩

/-- C1 amended, instantiated on a concrete game-over state. -/
theorem C1_amended_witness :
    (frame 0 0 0 [] stateOver).bird.y = stateOver.bird.y ∧
    (frame 0 0 0 [] stateOver).bird.vel = stateOver.bird.vel ∧
    stateOver.score ≤ (frame 0 0 0 [] stateOver).score :=
  ⟨(C1_amended 0 0 0 stateOver rfl).1, (C1_amended 0 0 0 stateOver rfl).2.1,
   (C1_amended 0 0 0 stateOver rfl).2.2.2.1⟩

/-! ## Exactly-once scoring lemmas -/

theorem pipeFrame_spec (bx : ℚ) (q : Pipe) :
    ((pipeFrame bx q).2 = 0 ∨ (pipeFrame bx q).2 = 1) ∧
    (q.passed = true → (pipeFrame bx q).1.passed = true ∧ (pipeFrame bx q).2 = 0) ∧
    ((pipeFrame bx q).2 = 1 → (pipeFrame bx q).1.passed = true) := by
  unfold pipeFrame pipeScore
  split_ifs with hc
  · dsimp
    refine ⟨Or.inr rfl, fun hq => ?_, fun _ => rfl⟩
    exfalso
    have hq' : (Pipe.update q).passed = true := by simpa [Pipe.update] using hq
    simp [hq'] at hc
  · dsimp
    refine ⟨Or.inl rfl, fun hq => ⟨by simpa [Pipe.update] using hq, rfl⟩,
      fun h => by simp at h⟩

theorem pipeLifetime_inv (bx : ℚ) (p : Pipe) :
    ∀ n, (pipeLifetime bx p n).2 ≤ 1 ∧
      ((pipeLifetime bx p n).2 = 1 → (pipeLifetime bx p n).1.passed = true) := by
  intro n
  induction n with
  | zero => refine ⟨?_, ?_⟩ <;> simp [pipeLifetime]
  | succ k ih =>
      rcases hq : pipeLifetime bx p k with ⟨p1, c1⟩
      rw [hq] at ih
      have hf := pipeFrame_spec bx p1
      rcases hf2 : pipeFrame bx p1 with ⟨p2, c2⟩
      rw [hf2] at hf
      have hstep : pipeLifetime bx p (k + 1) = (p2, c1 + c2) := by
        simp only [pipeLifetime, hq, hf2]
      rw [hstep]
      dsimp at ih hf ⊢
      have hc1le := ih.1
      rcases hf.1 with h0 | h1
      · subst h0
        refine ⟨by omega, fun hone => ?_⟩
        have hc1 : c1 = 1 := by omega
        exact (hf.2.1 (ih.2 hc1)).1
      · subst h1
        have hp2 : p2.passed = true := hf.2.2 rfl
        have hc1 : c1 = 0 := by
          by_contra hne
          have hc1' : c1 = 1 := by omega
          have hz := (hf.2.1 (ih.2 hc1')).2
          omega
        subst hc1
        exact ⟨by omega, fun _ => hp2⟩

/-- C7: scoring is exactly-once per obstacle: over any number of frames
an obstacle contributes at most one score increment; the increment fires
exactly when the obstacle is not yet `passed` and its trailing edge
`x + w` is strictly left of the entity's horizontal position; at that
moment `passed` is set to `true`; an obstacle already `passed` is left
untouched and contributes nothing. -/
theorem C7_scoring_exactly_once (bx : ℚ) (p : Pipe) (n : ℕ) (sc : ℕ) (hi : ℤ) :
    (pipeLifetime bx p n).2 ≤ 1 ∧
    ((pipeScore bx p sc hi).2.1 = sc + 1 ↔ (p.passed = false ∧ p.x + p.w < bx)) ∧
    ((pipeScore bx p sc hi).2.1 = sc + 1 → (pipeScore bx p sc hi).1.passed = true) ∧
    (p.passed = true → pipeScore bx p sc hi = (p, sc, hi)) := by
  refine ⟨(pipeLifetime_inv bx p n).1, ?_, ?_, ?_⟩
  · unfold pipeScore
    split_ifs with hc
    · dsimp
      simp only [Bool.and_eq_true, Bool.not_eq_true', decide_eq_true_eq] at hc
      exact ⟨fun _ => hc, fun _ => rfl⟩
    · dsimp
      constructor
      · intro h; exfalso; omega
      · intro hcond
        exfalso
        apply hc
        simp only [Bool.and_eq_true, Bool.not_eq_true', decide_eq_true_eq]
        exact hcond
  · unfold pipeScore
    split_ifs with hc
    · exact fun _ => rfl
    · intro h; dsimp at h; exfalso; omega
  · intro hp
    unfold pipeScore
    simp [hp]

/-- C7, instantiated on a concrete obstacle over three frames. -/
theorem C7_scoring_exactly_once_witness :
    (pipeLifetime BIRD_X pipeNearBird 3).2 ≤ 1 :=
  (C7_scoring_exactly_once BIRD_X pipeNearBird 3 0 0).1

/-- C8: score persistence never surfaces an error: `load_highscore`
returns 0 when the read raises and when the content fails to parse as an
integer, and `save_highscore` returns normally whatever the outcome of
the underlying write. -/
theorem C8_persistence_never_fails (e s : String) (v : ℤ) (w : Except String Unit)
    (h : pyInt (pyStrip s) = none) :
    load_highscore (Except.error e) = 0 ∧
    load_highscore (Except.ok s) = 0 ∧
    save_highscore v w = Except.ok () := by
  refine ⟨rfl, ?_, ?_⟩
  · show (if pyStrip s = "" then (0 : ℤ) else (pyInt (pyStrip s)).getD 0) = 0
    split_ifs with hc
    · rfl
    · rw [h]; rfl
  · cases w <;> rfl

/-- C8, instantiated on concrete failing inputs. -/
theorem C8_persistence_never_fails_witness :
    load_highscore (Except.error "e") = 0 ∧
    load_highscore (Except.ok "x") = 0 ∧
    save_highscore 5 (Except.error "w") = Except.ok () :=
  C8_persistence_never_fails "e" "x" 5 (Except.error "w") (by decide)

end Flappy
